import Mathlib

/-!
Shallow embedding of the ag-link URL shortener.

The authoritative implementation is `src/server.js`: the in-memory
`PersistentStorage` class (links / clicks / users / devices maps) and the
Express routes `/api/create`, `/api/dashboard`, `/api/stats/:code`,
`/api/delete/:code` and the redirect route `/:code`.  The sibling
prototypes (`src/unnamed/part_000` .. `part_003`) differ mainly in the
storage backend and in the alias length policy (3 instead of 2); the
fragments of those files that claims refer to are embedded as well
(`generateCode` with an explicit minimum-length parameter,
`statsLast7Days`).

Conventions of the embedding:
* JavaScript `Date` values are modelled as natural numbers.  A click's
  calendar day (the `toISOString().split('T')[0]` bucket) is the `day`
  field; "now" is passed explicitly to every operation that reads the
  clock.
* JS `Map` objects are modelled as association lists with `msLookup`,
  `msSet` (replace first binding or append) and `msErase` (remove first
  binding), matching `Map.get` / `Map.set` / `Map.delete`.
* The geo / user-agent enrichment of a click is external to the claims;
  a click therefore carries only the fields the store logic reads
  (`ip`, `deviceId`, `userId`, `day`).
* String primitives of JS (`trim`, `toLowerCase`, `startsWith`,
  `substring(0, 8)`, the `[^a-z0-9-_]` strip) are implemented over the
  character list of the string so that they evaluate inside the kernel;
  ASCII inputs behave exactly as in JS.
* `shortid.generate()` is a random source; it enters the model as an
  explicit `gen : String` argument of `createLink`.  The route applies
  `.substring(0, 8)` to it, nothing else: in particular the route
  consumes exactly one generated code per request.
-/

namespace AgLink

/-- JS whitespace characters relevant to `String.prototype.trim` (ASCII part). -/
def isWsChar (c : Char) : Bool :=
  c == ' ' || c == '\t' || c == '\n' || c == '\r'

/-- Models `s.trim()`: strip whitespace from both ends. -/
def jsTrim (s : String) : String :=
  String.mk (((s.toList.dropWhile isWsChar).reverse.dropWhile isWsChar).reverse)

/-- ASCII lower-casing of one character, as `toLowerCase` acts on ASCII. -/
def lowerChar (c : Char) : Char :=
  if 65 ≤ c.toNat ∧ c.toNat ≤ 90 then Char.ofNat (c.toNat + 32) else c

/-- Models `s.toLowerCase()` on ASCII strings. -/
def jsToLower (s : String) : String :=
  String.mk (s.toList.map lowerChar)

/-- The character class `[a-z0-9-_]` of the alias regex. -/
def isAliasChar (c : Char) : Bool :=
  (97 ≤ c.toNat && c.toNat ≤ 122) || (48 ≤ c.toNat && c.toNat ≤ 57) ||
    c == '-' || c == '_'

/-- `customAlias.trim().toLowerCase().replace(/[^a-z0-9-_]/g, '')`
(server.js line 1433, part_000 line 158, part_002 line 144). -/
def normalizeAlias (a : String) : String :=
  String.mk (((jsTrim a).toList.map lowerChar).filter isAliasChar)

/-- Models `s.startsWith(pre)`. -/
def jsStartsWith (s pre : String) : Bool :=
  pre.toList.isPrefixOf s.toList

/-- Models `s.substring(0, 8)` (ASCII). -/
def jsSubstring8 (s : String) : String :=
  String.mk (s.toList.take 8)

/-- URL formatting of the create routes (server.js lines 1425-1428,
part_000 lines 144-147, part_002 lines 136-139):
`if (!url.startsWith('http')) url = 'https://' + url`. -/
def formatUrl (url : String) : String :=
  if jsStartsWith url "http" then url else "https://" ++ url

/-- Modelled from the spec: a URL "carries a scheme" when it contains the
scheme separator `://` (the spec's examples of schemes are `https://` and
`http://`).  Used only to state the specification's claim about URL
normalization; the source itself never computes this. -/
def hasSchemeAux : List Char → Bool
  | ':' :: '/' :: '/' :: _ => true
  | _ :: rest => hasSchemeAux rest
  | [] => false

/-- Modelled from the spec: see `hasSchemeAux`. -/
def hasScheme (s : String) : Bool :=
  hasSchemeAux s.toList

/-- One recorded visit.  Only the fields the store logic reads are kept;
geo / user-agent enrichment is an external capability. -/
structure Click where
  ip : String
  deviceId : Option String
  userId : String
  day : Nat
  deriving DecidableEq

/-- A Link record as stored by `PersistentStorage` (server.js lines
1450-1463 construct it). -/
structure Link where
  shortCode : String
  fullUrl : String
  userId : String
  customAlias : Option String
  totalClicks : Nat
  uniqueClicks : Nat
  /-- `link.clicks`: the newest-first window of at most 100 clicks kept on
  the record itself (server.js lines 225-227). -/
  clicksRecent : List Click
  isActive : Bool
  createdAt : Nat
  expiresAt : Option Nat
  lastClicked : Option Nat
  deriving DecidableEq

/-- A user record (`getOrCreateUser`, server.js lines 142-163). -/
structure UserRec where
  links : List String
  createdAt : Nat
  lastSeen : Nat
  deriving DecidableEq

/-- The `PersistentStorage` state: `links`, `clicks`, `users`, `devices`
maps (server.js lines 90-95).  `loadFromStorage` / `saveToStorage` are
no-ops on the server (`window` is undefined), so they do not appear. -/
structure Storage where
  links : List (String × Link)
  clicks : List (String × List Click)
  users : List (String × UserRec)
  devices : List (String × String)
  deriving DecidableEq

/-- `Map.get`. -/
def msLookup {α : Type} (m : List (String × α)) (k : String) : Option α :=
  match m with
  | [] => none
  | (k', v) :: rest => if k' = k then some v else msLookup rest k

/-- `Map.set`: replace the binding if present, else append. -/
def msSet {α : Type} (m : List (String × α)) (k : String) (v : α) :
    List (String × α) :=
  match m with
  | [] => [(k, v)]
  | (k', v') :: rest =>
    if k' = k then (k, v) :: rest else (k', v') :: msSet rest k v

/-- `Map.delete`. -/
def msErase {α : Type} (m : List (String × α)) (k : String) :
    List (String × α) :=
  match m with
  | [] => []
  | (k', v') :: rest => if k' = k then rest else (k', v') :: msErase rest k

/-- The state of a freshly started process. -/
def emptyStorage : Storage := { links := [], clicks := [], users := [], devices := [] }

/-- `storage.getLink(code)` (server.js lines 183-185). -/
def getLink (st : Storage) (code : String) : Option Link :=
  msLookup st.links code

/-- `storage.getClicks(code)` (server.js lines 233-235): the full
append-only click ledger of a code, `[]` when absent. -/
def getClicks (st : Storage) (code : String) : List Click :=
  (msLookup st.clicks code).getD []

/-- `storage.getOrCreateUser(userId, deviceId, ...)` (server.js lines
142-163): create the user if absent, else refresh `lastSeen`; map the
device to the user when a device id is supplied. -/
def getOrCreateUser (st : Storage) (userId : String) (deviceId : Option String)
    (now : Nat) : Storage :=
  let users' :=
    match msLookup st.users userId with
    | none => msSet st.users userId { links := [], createdAt := now, lastSeen := now }
    | some u => msSet st.users userId { u with lastSeen := now }
  let devices' :=
    match deviceId with
    | some d => msSet st.devices d userId
    | none => st.devices
  { st with users := users', devices := devices' }

/-- `storage.addLink(link)` (server.js lines 170-181): store the link
under its short code and append the code to the owner's list when the
owner exists and does not hold it yet. -/
def addLink (st : Storage) (link : Link) : Storage :=
  let links' := msSet st.links link.shortCode link
  let users' :=
    match msLookup st.users link.userId with
    | some u =>
      if link.shortCode ∈ u.links then st.users
      else msSet st.users link.userId { u with links := u.links ++ [link.shortCode] }
    | none => st.users
  { st with links := links', users := users' }

/-- The visitor key of a click: `` `${click.ip}-${click.deviceId || ''}` ``
(server.js lines 216-219). -/
def uniqueKey (c : Click) : String :=
  c.ip ++ "-" ++ c.deviceId.getD ""

/-- Cardinality of the set of visitor keys of a click list (the `Set`
built in server.js lines 217-222). -/
def distinctKeys (cs : List Click) : Nat :=
  (cs.map uniqueKey).dedup.length

/-- `storage.addClick(code, click)` (server.js lines 198-231): append the
click (stamped with the current time) to the ledger, bump `totalClicks`,
refresh `lastClicked`, recompute `uniqueClicks` as the number of distinct
visitor keys in the ledger, and keep the newest 100 clicks on the record.
Returns `none` when the code is unknown, leaving the state unchanged. -/
def addClick (st : Storage) (code : String) (click : Click) (now : Nat) :
    Storage × Option Click :=
  match msLookup st.links code with
  | none => (st, none)
  | some link =>
    let stored : Click := { click with day := now }
    let cs := getClicks st code ++ [stored]
    let link' : Link :=
      { link with
        totalClicks := link.totalClicks + 1
        lastClicked := some now
        uniqueClicks := distinctKeys cs
        clicksRecent := (stored :: link.clicksRecent).take 100 }
    ({ st with links := msSet st.links code link'
               clicks := msSet st.clicks code cs }, some stored)

/-- Stable insertion step for the descending-`createdAt` sort used by
`getUserLinks`. -/
def insertByCreated (l : Link) : List Link → List Link
  | [] => [l]
  | x :: xs => if x.createdAt < l.createdAt then l :: x :: xs else x :: insertByCreated l xs

/-- `.sort((a, b) => new Date(b.createdAt) - new Date(a.createdAt))`
as a stable insertion sort. -/
def sortByCreatedDesc (ls : List Link) : List Link :=
  ls.foldr insertByCreated []

/-- `storage.getUserLinks(userId)` (server.js lines 187-195): resolve the
owner's codes, drop dangling ones, newest first. -/
def getUserLinks (st : Storage) (userId : String) : List Link :=
  match msLookup st.users userId with
  | none => []
  | some u => sortByCreatedDesc ((u.links.map (fun c => msLookup st.links c)).filterMap id)

/-- `storage.deleteLink(userId, code)` (server.js lines 237-252): `false`
(leaving everything untouched) when the code is unknown or owned by a
different user; otherwise remove the link, its click ledger and the
owner's reference to it. -/
def deleteLink (st : Storage) (userId code : String) : Storage × Bool :=
  match msLookup st.links code with
  | none => (st, false)
  | some link =>
    if link.userId = userId then
      let users' :=
        match msLookup st.users userId with
        | some u => msSet st.users userId { u with links := u.links.filter (fun c => c ≠ code) }
        | none => st.users
      ({ st with links := msErase st.links code
                 clicks := msErase st.clicks code
                 users := users' }, true)
    else (st, false)

/-- Outcome of the create route. -/
inductive CreateResult where
  | missingUrl
  | invalidAlias
  | duplicateCode
  | success (code : String)
  deriving DecidableEq

/-- The short-code computation of the create routes, parameterized by the
minimum alias length: server.js lines 1431-1439 use `minLen = 2`,
part_000 lines 155-164 and part_002 lines 141-148 use `minLen = 3`.
`none` is the `InvalidAlias` rejection; otherwise the normalized alias or
the first 8 characters of the generated id is returned. -/
def generateCode (minLen : Nat) (customAlias : Option String) (gen : String) :
    Option String :=
  match customAlias with
  | some a =>
    if jsTrim a = "" then some (jsSubstring8 gen)
    else if (normalizeAlias a).length < minLen then none
    else some (normalizeAlias a)
  | none => some (jsSubstring8 gen)

/-- The `/api/create` route of server.js (lines 1416-1488): require a URL,
format it, compute the short code (alias policy minimum 2), reject when
the code is already taken, register the caller, store the link.  The QR
generation is asynchronous and does not affect the response. -/
def createLink (st : Storage) (fullUrl userId : String) (deviceId : Option String)
    (customAlias : Option String) (expiresIn : Option Nat) (gen : String)
    (now : Nat) : Storage × CreateResult :=
  if fullUrl = "" then (st, .missingUrl)
  else
    match generateCode 2 customAlias gen with
    | none => (st, .invalidAlias)
    | some shortCode =>
      match msLookup st.links shortCode with
      | some _ => (st, .duplicateCode)
      | none =>
        let st1 := getOrCreateUser st userId deviceId now
        let link : Link :=
          { shortCode := shortCode
            fullUrl := formatUrl fullUrl
            userId := userId
            customAlias := customAlias
            totalClicks := 0
            uniqueClicks := 0
            clicksRecent := []
            isActive := true
            createdAt := now
            expiresAt := expiresIn.map (fun s => now + s)
            lastClicked := none }
        (addLink st1 link, .success shortCode)

/-- Outcome of a visit to `/:code`.  The route collapses "unknown code"
and "inactive link" into one redirect-to-home response. -/
inductive ResolveResult where
  | notFoundOrInactive
  | expired
  | redirected (target : String)
  deriving DecidableEq

/-- The click-tracking tail of the redirect route (server.js lines
1717-1753): resolve the visitor's user from the device map, record the
click, refresh the user, redirect to the target. -/
def resolveTrack (st : Storage) (link : Link) (code ip deviceId : String)
    (now : Nat) : Storage × ResolveResult :=
  let userId := (msLookup st.devices deviceId).getD "anonymous"
  let click : Click := { ip := ip, deviceId := some deviceId, userId := userId, day := now }
  let st1 := (addClick st code click now).1
  let st2 := if userId ≠ "anonymous" then getOrCreateUser st1 userId (some deviceId) now else st1
  (st2, .redirected link.fullUrl)

/-- The redirect route `/:code` of server.js (lines 1702-1759): unknown or
inactive codes bounce to home; an expired link is deactivated and the
visitor is told so, with no click recorded; otherwise the click is
tracked and the visitor is redirected. -/
def resolveVisit (st : Storage) (code ip deviceId : String) (now : Nat) :
    Storage × ResolveResult :=
  match msLookup st.links code with
  | none => (st, .notFoundOrInactive)
  | some link =>
    if link.isActive then
      match link.expiresAt with
      | some e =>
        if e < now then
          ({ st with links := msSet st.links code { link with isActive := false } }, .expired)
        else resolveTrack st link code ip deviceId now
      | none => resolveTrack st link code ip deviceId now
    else (st, .notFoundOrInactive)

/-- Outcome of the delete route. -/
inductive DeleteResult where
  | missingUserId
  | notFound
  | deleted
  deriving DecidableEq

/-- The `/api/delete/:code` route (server.js lines 1678-1699): require a
user id, register the caller, delegate to `deleteLink`; a `false` from
the store is reported as not-found. -/
def deleteRoute (st : Storage) (userId : String) (deviceId : Option String)
    (code : String) (now : Nat) : Storage × DeleteResult :=
  if userId = "" then (st, .missingUserId)
  else
    let st1 := getOrCreateUser st userId deviceId now
    let res := deleteLink st1 userId code
    (res.1, if res.2 then .deleted else .notFound)

/-- Sequential execution of a batch of `addClick` calls on one code. -/
def recordAll (st : Storage) (code : String) (cs : List Click) (now : Nat) : Storage :=
  match cs with
  | [] => st
  | c :: rest => recordAll (addClick st code c now).1 code rest now

/-- All clicks of an owner's links, in dashboard iteration order
(server.js lines 1550-1557 iterate the owner's links and each ledger). -/
def ownerClicks (st : Storage) (userId : String) : List Click :=
  (getUserLinks st userId).flatMap (fun l => getClicks st l.shortCode)

/-- The `clicksByDay[dateStr] || 0` lookup of the dashboard: the number of
the owner's clicks that fall on a given day. -/
def ownerDayCount (st : Storage) (userId : String) (d : Nat) : Nat :=
  (ownerClicks st userId).countP (fun c => c.day = d)

/-- The last-7-days loop shared by the dashboard (server.js lines
1559-1567) and the part_000 stats route (lines 321-331):
`for (let i = 6; i >= 0; i--) push({date: today - i, clicks: cnt || 0})`. -/
def last7Days (cnt : Nat → Nat) (today : Nat) : List (Nat × Nat) :=
  ((List.range 7).reverse).map (fun i => (today - i, cnt (today - i)))

/-- `recentActivity` of `/api/dashboard` (server.js lines 1545-1567). -/
def dashboardRecentActivity (st : Storage) (userId : String) (today : Nat) :
    List (Nat × Nat) :=
  last7Days (ownerDayCount st userId) today

/-- `overview.totalClicks` of `/api/dashboard` (server.js line 1542). -/
def dashboardTotalClicks (st : Storage) (userId : String) : Nat :=
  (getUserLinks st userId).foldl (fun s l => s + l.totalClicks) 0

/-- `overview.uniqueClicks` of `/api/dashboard` (server.js line 1543):
the sum of the per-link `uniqueClicks` counters of the owner's links. -/
def dashboardUniqueClicks (st : Storage) (userId : String) : Nat :=
  (getUserLinks st userId).foldl (fun s l => s + l.uniqueClicks) 0

/-- The `daily` series of the part_000 stats route (lines 301-331): bucket
the link's clicks by calendar day, then run the last-7-days loop. -/
def statsLast7Days (clicks : List Click) (today : Nat) : List (Nat × Nat) :=
  last7Days (fun d => clicks.countP (fun c => c.day = d)) today

/-- One link entry of the store has accurate counters: it is stored under
its own code and its `uniqueClicks` equals the number of distinct visitor
keys in its ledger. -/
def linkStatsOK (st : Storage) (p : String × Link) : Bool :=
  p.2.shortCode == p.1 && p.2.uniqueClicks == distinctKeys (getClicks st p.1)

/-- Every stored link has accurate counters (`addClick` maintains this). -/
def statsConsistent (st : Storage) : Bool :=
  st.links.all (linkStatsOK st)

/-- The links map binds each code at most once (true of every state built
by `Map.set` / `Map.delete` from the empty map). -/
def linksWF (st : Storage) : Prop :=
  (st.links.map Prod.fst).Nodup

/-- One create request, as read from the request body by `/api/create`. -/
structure CreateReq where
  fullUrl : String
  userId : String
  deviceId : Option String
  customAlias : Option String
  expiresIn : Option Nat
  gen : String
  deriving DecidableEq

/-- Serialized execution of a batch of create requests.  The route body of
server.js performs its existence-check-then-insert with no intervening
`await`, so the Node event loop runs each request's critical section
atomically: any set of concurrent requests executes as some sequence,
which this function models (the theorem quantifies over all sequences). -/
def runCreates (st : Storage) (reqs : List CreateReq) (now : Nat) :
    Storage × List CreateResult :=
  match reqs with
  | [] => (st, [])
  | r :: rest =>
    let one := createLink st r.fullUrl r.userId r.deviceId r.customAlias r.expiresIn r.gen now
    let more := runCreates one.1 rest now
    (more.1, one.2 :: more.2)

/-- Whether a create outcome is a success. -/
def isSuccess : CreateResult → Bool
  | .success _ => true
  | _ => false

/-- The Link record a successful create stores (the literal of server.js
lines 1450-1463, named for reuse in statements). -/
def storedLink (fullUrl userId : String) (ca : Option String) (exp : Option Nat)
    (now : Nat) (code : String) : Link :=
  { shortCode := code, fullUrl := formatUrl fullUrl, userId := userId,
    customAlias := ca, totalClicks := 0, uniqueClicks := 0, clicksRecent := [],
    isActive := true, createdAt := now, expiresAt := exp.map (fun s => now + s),
    lastClicked := none }

instance (st : Storage) : Decidable (linksWF st) :=
  inferInstanceAs (Decidable (st.links.map Prod.fst).Nodup)

/-- The link value `addClick` writes back when the looked-up link is `l`
(named for reuse in statements; identical to the update inside
`addClick`). -/
def bumpedLink (st : Storage) (code : String) (c : Click) (now : Nat) (l : Link) :
    Link :=
  { l with
    totalClicks := l.totalClicks + 1
    lastClicked := some now
    uniqueClicks := distinctKeys (getClicks st code ++ [{ c with day := now }])
    clicksRecent := ({ c with day := now } :: l.clicksRecent).take 100 }

/-! ### Concrete states used by witnesses and counterexamples -/

/-- Concrete state for the expiry scenario: an active link `abc` that
expired at time 5. -/
def linkC3 : Link :=
  { shortCode := "abc", fullUrl := "https://example.com", userId := "userA",
    customAlias := some "abc", totalClicks := 0, uniqueClicks := 0,
    clicksRecent := [], isActive := true, createdAt := 0, expiresAt := some 5,
    lastClicked := none }

/-- Concrete storage holding `linkC3`. -/
def stC3 : Storage :=
  { links := [("abc", linkC3)], clicks := [],
    users := [("userA", { links := ["abc"], createdAt := 0, lastSeen := 0 })],
    devices := [] }

/-- State after `userA` created the link `promo`. -/
def stC1a : Storage :=
  (createLink emptyStorage "example.com" "userA" (some "devA") (some "promo") none
    "g1g1g1g1" 0).1

/-- State after `userA` created a link under the generated code
`abc123xy`. -/
def stC7 : Storage :=
  (createLink emptyStorage "example.com" "userA" none none none "abc123xy" 0).1

/-- The link stored in `stC7`. -/
def linkC7 : Link :=
  { shortCode := "abc123xy", fullUrl := "https://example.com", userId := "userA",
    customAlias := none, totalClicks := 0, uniqueClicks := 0, clicksRecent := [],
    isActive := true, createdAt := 0, expiresAt := none, lastClicked := none }

/-- State after `userA` created the link `ccc` (fresh counters, no
clicks yet). -/
def stC2 : Storage :=
  (createLink emptyStorage "example.com" "userA" (some "dev0") (some "ccc") none
    "hhhhhhhh" 0).1

/-- The fresh link stored in `stC2`. -/
def linkC2 : Link := storedLink "example.com" "userA" (some "ccc") none 0 "ccc"

/-- Five visits from three distinct IPs, no device fingerprint. -/
def csC2 : List Click :=
  [{ ip := "1.1.1.1", deviceId := none, userId := "x", day := 0 },
   { ip := "1.1.1.1", deviceId := none, userId := "x", day := 0 },
   { ip := "2.2.2.2", deviceId := none, userId := "x", day := 0 },
   { ip := "2.2.2.2", deviceId := none, userId := "x", day := 0 },
   { ip := "3.3.3.3", deviceId := none, userId := "x", day := 0 }]

/-- One visitor (one IP and device) who clicked two different links. -/
def clickW : Click := { ip := "9.9.9.9", deviceId := some "dW", userId := "x", day := 1 }

/-- First link of `ownerA`, clicked once by the visitor of `clickW`. -/
def linkW1 : Link :=
  { shortCode := "aaa", fullUrl := "https://a.example", userId := "ownerA",
    customAlias := none, totalClicks := 1, uniqueClicks := 1,
    clicksRecent := [clickW], isActive := true, createdAt := 0, expiresAt := none,
    lastClicked := some 1 }

/-- Second link of `ownerA`, clicked once by the same visitor. -/
def linkW2 : Link :=
  { shortCode := "bbb", fullUrl := "https://b.example", userId := "ownerA",
    customAlias := none, totalClicks := 1, uniqueClicks := 1,
    clicksRecent := [clickW], isActive := true, createdAt := 2, expiresAt := none,
    lastClicked := some 1 }

/-- Storage where one visitor clicked two links of the same owner. -/
def stC10 : Storage :=
  { links := [("aaa", linkW1), ("bbb", linkW2)],
    clicks := [("aaa", [clickW]), ("bbb", [clickW])],
    users := [("ownerA", { links := ["aaa", "bbb"], createdAt := 0, lastSeen := 0 })],
    devices := [] }

/-- First of two concurrent create requests for the alias `promo`. -/
def reqC9a : CreateReq :=
  { fullUrl := "one.example", userId := "uA", deviceId := none,
    customAlias := some "promo", expiresIn := none, gen := "gen1gen1" }

/-- Second of two concurrent create requests for the alias `promo`. -/
def reqC9b : CreateReq :=
  { fullUrl := "two.example", userId := "uB", deviceId := none,
    customAlias := some "promo", expiresIn := none, gen := "gen2gen2" }

/-! ### Association-list map lemmas -/

theorem msLookup_msSet_self {α : Type} (m : List (String × α)) (k : String) (v : α) :
    msLookup (msSet m k v) k = some v := by
  induction m with
  | nil => simp [msSet, msLookup]
  | cons p rest ih =>
    by_cases h : p.1 = k
    · simp [msSet, msLookup, h]
    · simp [msSet, msLookup, h, ih]

theorem msLookup_msSet_ne {α : Type} (m : List (String × α)) (k k' : String) (v : α)
    (h : k' ≠ k) : msLookup (msSet m k v) k' = msLookup m k' := by
  induction m with
  | nil =>
    have hne : k ≠ k' := fun e => h e.symm
    simp [msSet, msLookup, hne]
  | cons p rest ih =>
    by_cases hp : p.1 = k
    · subst hp
      have hne : p.1 ≠ k' := fun e => h e.symm
      simp [msSet, msLookup, hne]
    · simp only [msSet, if_neg hp, msLookup]
      by_cases hp' : p.1 = k'
      · simp [hp']
      · simp [hp', ih]

theorem msLookup_msErase_self {α : Type} (m : List (String × α)) (k : String)
    (h : (m.map Prod.fst).Nodup) : msLookup (msErase m k) k = none := by
  induction m with
  | nil => simp [msErase, msLookup]
  | cons p rest ih =>
    simp only [List.map_cons, List.nodup_cons] at h
    by_cases hp : p.1 = k
    · subst hp
      simp only [msErase, if_pos rfl]
      -- the key p.1 does not occur in rest, so the lookup misses
      clear ih
      induction rest with
      | nil => simp [msLookup]
      | cons q qs ihq =>
        simp only [List.mem_map, List.mem_cons] at h
        have hq : q.1 ≠ p.1 := by
          intro e
          exact h.1 ⟨q, Or.inl rfl, e⟩
        simp only [msLookup, if_neg hq]
        refine ihq ⟨?_, (List.nodup_cons.mp h.2).2⟩
        intro hx
        rcases List.mem_map.mp hx with ⟨q', hq', he⟩
        exact h.1 ⟨q', Or.inr hq', he⟩
    · simp only [msErase, if_neg hp, msLookup, if_neg hp]
      exact ih h.2

theorem msLookup_mem {α : Type} (m : List (String × α)) (k : String) (v : α)
    (h : msLookup m k = some v) : (k, v) ∈ m := by
  induction m with
  | nil => simp [msLookup] at h
  | cons p rest ih =>
    by_cases hp : p.1 = k
    · simp only [msLookup, if_pos hp] at h
      cases h
      subst hp
      exact List.mem_cons_self p rest
    · simp only [msLookup, if_neg hp] at h
      exact List.mem_cons_of_mem _ (ih h)

/-! ### Behaviour of the redirect route -/

/-- The visitor-facing outcome of `/:code` depends only on the links map. -/
theorem resolveVisit_snd_links {st st' : Storage} (h : st'.links = st.links)
    (code ip dev : String) (now : Nat) :
    (resolveVisit st' code ip dev now).2 = (resolveVisit st code ip dev now).2 := by
  unfold resolveVisit
  rw [h]
  cases msLookup st.links code with
  | none => rfl
  | some link =>
    by_cases ha : link.isActive = true
    · simp only [ha, if_true]
      cases link.expiresAt with
      | none => rfl
      | some e =>
        by_cases he : e < now
        · simp [he]
        · simp [he, resolveTrack]
    · simp [ha]

/-- C3: on a still-active link whose expiry lies in the past, the first
visit returns the expired outcome and its only side effect is flipping
`isActive` to false (no click is recorded, no other map changes); every
subsequent visit to the code returns the inactive outcome and leaves the
state untouched. -/
theorem expired_link_first_visit_flips_inactive
    (st : Storage) (code : String) (link : Link) (e : Nat) (ip dev : String) (now : Nat)
    (hlk : msLookup st.links code = some link) (hact : link.isActive = true)
    (hexp : link.expiresAt = some e) (hlt : e < now) :
    resolveVisit st code ip dev now
      = ({ st with links := msSet st.links code { link with isActive := false } },
         ResolveResult.expired) ∧
    ({ st with links := msSet st.links code { link with isActive := false } } : Storage).clicks
      = st.clicks ∧
    (∀ ip' dev' now',
      resolveVisit { st with links := msSet st.links code { link with isActive := false } }
          code ip' dev' now'
        = ({ st with links := msSet st.links code { link with isActive := false } },
           ResolveResult.notFoundOrInactive)) := by
  refine ⟨?_, rfl, ?_⟩
  · unfold resolveVisit
    rw [hlk]
    simp only [hact, if_true, hexp]
    rw [if_pos hlt]
  · intro ip' dev' now'
    unfold resolveVisit
    have hlk' : msLookup
        ({ st with links := msSet st.links code { link with isActive := false } } : Storage).links
        code = some { link with isActive := false } :=
      msLookup_msSet_self st.links code _
    rw [hlk']
    simp

/-- Witness for `expired_link_first_visit_flips_inactive`: visiting the
expired link `abc` at time 10 yields the expired outcome, records no
click, and a second visit reports the link inactive. -/
theorem expired_link_first_visit_flips_inactive_witness :
    msLookup stC3.links "abc" = some linkC3 ∧ linkC3.isActive = true ∧
    linkC3.expiresAt = some 5 ∧ 5 < 10 ∧
    (resolveVisit stC3 "abc" "1.2.3.4" "dev1" 10).2 = ResolveResult.expired ∧
    (resolveVisit stC3 "abc" "1.2.3.4" "dev1" 10).1.clicks = stC3.clicks ∧
    (resolveVisit (resolveVisit stC3 "abc" "1.2.3.4" "dev1" 10).1
        "abc" "5.6.7.8" "dev2" 11).2 = ResolveResult.notFoundOrInactive := by
  have h := expired_link_first_visit_flips_inactive stC3 "abc" linkC3 5 "1.2.3.4" "dev1" 10
    (by decide) (by decide) (by decide) (by decide)
  refine ⟨by decide, by decide, by decide, by decide, ?_, ?_, ?_⟩
  · rw [h.1]
  · rw [h.1]
  · rw [h.1]
    exact congrArg Prod.snd (h.2.2 "5.6.7.8" "dev2" 11)

/-! ### Deletion by a non-owner -/

/-- C4: when the code does not exist or belongs to a different owner, the
delete route answers not-found in both cases, the links and clicks maps
are untouched, the link is still there, and a visit to the code behaves
exactly as before the attempt. -/
theorem delete_nonowner_notFound_store_unchanged
    (st : Storage) (userId : String) (dev : Option String) (code : String) (now : Nat)
    (huid : userId ≠ "")
    (hmiss : msLookup st.links code = none ∨
      ∃ l, msLookup st.links code = some l ∧ l.userId ≠ userId) :
    (deleteRoute st userId dev code now).2 = DeleteResult.notFound ∧
    (deleteRoute st userId dev code now).1.links = st.links ∧
    (deleteRoute st userId dev code now).1.clicks = st.clicks ∧
    (∀ c, getLink (deleteRoute st userId dev code now).1 c = getLink st c) ∧
    (∀ c ip dev' n, (resolveVisit (deleteRoute st userId dev code now).1 c ip dev' n).2
        = (resolveVisit st c ip dev' n).2) := by
  have hl : (getOrCreateUser st userId dev now).links = st.links := rfl
  have hdel : deleteLink (getOrCreateUser st userId dev now) userId code
      = (getOrCreateUser st userId dev now, false) := by
    unfold deleteLink
    rw [hl]
    rcases hmiss with hnone | ⟨l, hsome, hne⟩
    · rw [hnone]
    · rw [hsome]
      simp [hne]
  have hroute : deleteRoute st userId dev code now
      = (getOrCreateUser st userId dev now, DeleteResult.notFound) := by
    unfold deleteRoute
    rw [if_neg huid]
    simp only [hdel]
    rfl
  refine ⟨by rw [hroute], by rw [hroute]; rfl, by rw [hroute]; rfl, ?_, ?_⟩
  · intro c
    rw [hroute]
    rfl
  · intro c ip dev' n
    rw [hroute]
    exact @resolveVisit_snd_links st (getOrCreateUser st userId dev now) rfl c ip dev' n

/-- Witness for `delete_nonowner_notFound_store_unchanged`: owner `userB`
asks to delete `abc`, which belongs to `userA`; the route answers
not-found, the link survives, and the code still resolves the same way. -/
theorem delete_nonowner_notFound_store_unchanged_witness :
    ("userB" : String) ≠ "" ∧
    msLookup stC3.links "abc" = some linkC3 ∧ linkC3.userId ≠ "userB" ∧
    (deleteRoute stC3 "userB" none "abc" 3).2 = DeleteResult.notFound ∧
    (deleteRoute stC3 "userB" none "abc" 3).1.links = stC3.links ∧
    (deleteRoute stC3 "userB" none "abc" 3).1.clicks = stC3.clicks ∧
    getLink (deleteRoute stC3 "userB" none "abc" 3).1 "abc" = getLink stC3 "abc" ∧
    (resolveVisit (deleteRoute stC3 "userB" none "abc" 3).1 "abc" "1.2.3.4" "d" 3).2
      = (resolveVisit stC3 "abc" "1.2.3.4" "d" 3).2 := by
  have h := delete_nonowner_notFound_store_unchanged stC3 "userB" none "abc" 3
    (by decide) (Or.inr ⟨linkC3, by decide, by decide⟩)
  exact ⟨by decide, by decide, by decide, h.1, h.2.1, h.2.2.1, h.2.2.2.1 "abc",
    h.2.2.2.2 "abc" "1.2.3.4" "d" 3⟩

/-! ### Create-route equations -/

/-- A create whose code computation yields a fresh `code` stores the
formatted link and reports success. -/
theorem createLink_success_eq (st : Storage) (fullUrl userId : String)
    (dev ca : Option String) (exp : Option Nat) (gen : String) (now : Nat)
    (code : String)
    (hurl : fullUrl ≠ "") (hgen : generateCode 2 ca gen = some code)
    (hnone : msLookup st.links code = none) :
    createLink st fullUrl userId dev ca exp gen now
      = (addLink (getOrCreateUser st userId dev now)
          (storedLink fullUrl userId ca exp now code),
         CreateResult.success code) := by
  unfold createLink
  rw [if_neg hurl]
  split
  next heq =>
    rw [hgen] at heq
    simp at heq
  next sc heq =>
    rw [hgen] at heq
    injection heq with h
    subst h
    split
    next l heq2 =>
      rw [hnone] at heq2
      simp at heq2
    next heq2 => rfl

/-- A create whose code computation yields an already-taken `code` is
rejected as a duplicate, state unchanged. -/
theorem createLink_duplicate_eq (st : Storage) (fullUrl userId : String)
    (dev ca : Option String) (exp : Option Nat) (gen : String) (now : Nat)
    (code : String) (l : Link)
    (hurl : fullUrl ≠ "") (hgen : generateCode 2 ca gen = some code)
    (hsome : msLookup st.links code = some l) :
    createLink st fullUrl userId dev ca exp gen now = (st, CreateResult.duplicateCode) := by
  unfold createLink
  rw [if_neg hurl]
  split
  next heq =>
    rw [hgen] at heq
    simp at heq
  next sc heq =>
    rw [hgen] at heq
    injection heq with h
    subst h
    split
    next l' heq2 => rfl
    next heq2 =>
      rw [hsome] at heq2
      simp at heq2

/-- Inversion of a successful create: the URL was nonempty, the code came
from `generateCode`, and the code was free. -/
theorem createLink_success_inv (st : Storage) (fullUrl userId : String)
    (dev ca : Option String) (exp : Option Nat) (gen : String) (now : Nat)
    (code : String)
    (hsucc : (createLink st fullUrl userId dev ca exp gen now).2
      = CreateResult.success code) :
    fullUrl ≠ "" ∧ generateCode 2 ca gen = some code ∧
    msLookup st.links code = none := by
  unfold createLink at hsucc
  split at hsucc
  · simp at hsucc
  next hu =>
    split at hsucc
    · simp at hsucc
    next sc hg =>
      split at hsucc
      · simp at hsucc
      next hm =>
        have hsc : sc = code := by simpa using hsucc
        subst hsc
        exact ⟨hu, hg, hm⟩

/-! ### Short-code reuse after deletion -/

/-- Counterexample run for the no-reuse invariant: `userA` creates
`promo`, deletes it, and `userB` immediately creates `promo` again with
success — the store does not remember deleted codes. -/
theorem create_after_delete_succeeds_concrete :
    (createLink emptyStorage "example.com" "userA" (some "devA") (some "promo") none
        "g1g1g1g1" 0).2 = CreateResult.success "promo" ∧
    (deleteLink stC1a "userA" "promo").2 = true ∧
    (createLink (deleteLink stC1a "userA" "promo").1 "evil.example" "userB" (some "devB")
        (some "promo") none "g2g2g2g2" 1).2 = CreateResult.success "promo" := by
  exact ⟨by decide, by decide, by decide⟩

/-- C1 (amended): deletion frees the short code.  If the links map binds
each code once and `deleteLink` succeeds for `code`, then any subsequent
create whose custom alias normalizes to `code` (meeting the length-2
policy, with a nonempty URL) succeeds, assigning the same code again. -/
theorem delete_frees_code_for_reuse
    (st st' : Storage) (owner code fullUrl uid2 : String) (dev : Option String)
    (alias2 : String) (exp : Option Nat) (gen : String) (now : Nat)
    (hwf : linksWF st)
    (hdel : deleteLink st owner code = (st', true))
    (hurl : fullUrl ≠ "")
    (htrim : jsTrim alias2 ≠ "")
    (hnorm : normalizeAlias alias2 = code)
    (hlen : 2 ≤ code.length) :
    (createLink st' fullUrl uid2 dev (some alias2) exp gen now).2
      = CreateResult.success code := by
  have hlinks : st'.links = msErase st.links code := by
    unfold deleteLink at hdel
    split at hdel
    · exact absurd (congrArg Prod.snd hdel) (by simp)
    next link hm =>
      split at hdel
      next ho =>
        simp only [Prod.mk.injEq] at hdel
        rw [← hdel.1]
      next ho => exact absurd (congrArg Prod.snd hdel) (by simp)
  have hgone : msLookup st'.links code = none := by
    rw [hlinks]
    exact msLookup_msErase_self st.links code hwf
  have hgen : generateCode 2 (some alias2) gen = some code := by
    show (if jsTrim alias2 = "" then some (jsSubstring8 gen)
      else if (normalizeAlias alias2).length < 2 then none
      else some (normalizeAlias alias2)) = some code
    rw [if_neg htrim, hnorm, if_neg (by omega : ¬ code.length < 2)]
  rw [createLink_success_eq st' fullUrl uid2 dev (some alias2) exp gen now code hurl
    hgen hgone]

/-- Witness for `delete_frees_code_for_reuse` on the concrete run of
`create_after_delete_succeeds_concrete`. -/
theorem delete_frees_code_for_reuse_witness :
    linksWF stC1a ∧
    deleteLink stC1a "userA" "promo" = ((deleteLink stC1a "userA" "promo").1, true) ∧
    ("evil.example" : String) ≠ "" ∧ jsTrim "promo" ≠ "" ∧
    normalizeAlias "promo" = "promo" ∧ 2 ≤ ("promo" : String).length ∧
    (createLink (deleteLink stC1a "userA" "promo").1 "evil.example" "userB" (some "devB")
        (some "promo") none "g2g2g2g2" 1).2 = CreateResult.success "promo" := by
  refine ⟨by decide, by decide, by decide, by decide, by decide, by decide, ?_⟩
  exact delete_frees_code_for_reuse stC1a (deleteLink stC1a "userA" "promo").1 "userA"
    "promo" "evil.example" "userB" (some "devB") "promo" none "g2g2g2g2" 1
    (by decide) (by decide) (by decide) (by decide) (by decide) (by decide)

/-! ### URL normalization -/

/-- Counterexample to the scheme-based reading of URL normalization:
`ftp://example.com` carries a scheme yet is not stored unchanged (it
becomes `https://ftp://example.com`), and `httpfoo.com` carries no scheme
yet is stored without an `https://` or `http://` prefix, because the
route's check is the literal string prefix `http`. -/
theorem scheme_normalization_claim_false_concrete :
    hasScheme "ftp://example.com" = true ∧
    formatUrl "ftp://example.com" ≠ "ftp://example.com" ∧
    (createLink emptyStorage "ftp://example.com" "userA" none none none "g3g3g3g3" 0).2
      = CreateResult.success "g3g3g3g3" ∧
    (getLink (createLink emptyStorage "ftp://example.com" "userA" none none none
        "g3g3g3g3" 0).1 "g3g3g3g3").map (fun l => l.fullUrl)
      = some "https://ftp://example.com" ∧
    hasScheme "httpfoo.com" = false ∧
    (getLink (createLink emptyStorage "httpfoo.com" "userA" none none none
        "g4g4g4g4" 0).1 "g4g4g4g4").map (fun l => l.fullUrl) = some "httpfoo.com" ∧
    jsStartsWith "httpfoo.com" "https://" = false ∧
    jsStartsWith "httpfoo.com" "http://" = false := by
  exact ⟨by decide, by decide, by decide, by decide, by decide, by decide, by decide,
    by decide⟩

/-- C5 (amended): the create route's normalization decision is the literal
prefix `http`, not the presence of a scheme.  Every successful create
stores the formatted URL; inputs that do not start with `http` get an
`https://` prefix prepended, inputs that do start with `http` are stored
unchanged. -/
theorem create_stores_formatted_url
    (st : Storage) (fullUrl userId : String) (dev : Option String)
    (ca : Option String) (exp : Option Nat) (gen : String) (now : Nat) (code : String)
    (hsucc : (createLink st fullUrl userId dev ca exp gen now).2
      = CreateResult.success code) :
    (getLink (createLink st fullUrl userId dev ca exp gen now).1 code).map
        (fun l => l.fullUrl) = some (formatUrl fullUrl) ∧
    (jsStartsWith fullUrl "http" = false →
      formatUrl fullUrl = "https://" ++ fullUrl ∧
      jsStartsWith (formatUrl fullUrl) "https://" = true) ∧
    (jsStartsWith fullUrl "http" = true → formatUrl fullUrl = fullUrl) := by
  refine ⟨?_, ?_, ?_⟩
  · obtain ⟨hu, hg, hm⟩ :=
      createLink_success_inv st fullUrl userId dev ca exp gen now code hsucc
    rw [createLink_success_eq st fullUrl userId dev ca exp gen now code hu hg hm]
    have h2 : getLink
        (addLink (getOrCreateUser st userId dev now)
          (storedLink fullUrl userId ca exp now code),
         CreateResult.success code).1 code
        = some (storedLink fullUrl userId ca exp now code) :=
      msLookup_msSet_self (getOrCreateUser st userId dev now).links code
        (storedLink fullUrl userId ca exp now code)
    rw [h2]
    rfl
  · intro hns
    constructor
    · unfold formatUrl
      rw [if_neg (by simp [hns])]
    · unfold formatUrl
      rw [if_neg (by simp [hns])]
      unfold jsStartsWith
      rw [List.isPrefixOf_iff_prefix]
      have : ("https://" ++ fullUrl).toList = "https://".toList ++ fullUrl.toList := by
        simp [String.toList, String.data_append]
      rw [this]
      exact List.prefix_append _ _
  · intro hs
    unfold formatUrl
    rw [if_pos hs]

/-- Witness for `create_stores_formatted_url`: creating `example.com`
stores `https://example.com`. -/
theorem create_stores_formatted_url_witness :
    (createLink emptyStorage "example.com" "userA" none none (some 3600) "abc123zz" 0).2
      = CreateResult.success "abc123zz" ∧
    (getLink (createLink emptyStorage "example.com" "userA" none none (some 3600)
        "abc123zz" 0).1 "abc123zz").map (fun l => l.fullUrl) = some "https://example.com" ∧
    jsStartsWith "example.com" "http" = false ∧
    formatUrl "example.com" = "https://" ++ "example.com" := by
  have h := create_stores_formatted_url emptyStorage "example.com" "userA" none none
    (some 3600) "abc123zz" 0 "abc123zz" (by decide)
  refine ⟨by decide, ?_, by decide, (h.2.1 (by decide)).1⟩
  have h1 := h.1
  rw [h1]
  decide

/-! ### Generated-code collisions -/

/-- Counterexample to the retry claim: a create without alias whose
system-generated code collides with an existing link is answered
`duplicateCode` on that very first collision, with the state unchanged —
the route consumes a single generated code and has no retry loop and no
exhaustion outcome. -/
theorem generated_code_collision_duplicate_concrete :
    (createLink emptyStorage "example.com" "userA" none none none "abc123xy" 0).2
      = CreateResult.success "abc123xy" ∧
    createLink stC7 "other.example" "userB" none none none "abc123xy" 1
      = (stC7, CreateResult.duplicateCode) := by
  exact ⟨by decide, by decide⟩

/-- C7 (amended): for a create without a custom alias the route checks the
single generated code against the store: on collision it fails immediately
with `duplicateCode` (leaving the state unchanged), otherwise it succeeds
with that code.  There is no retry and no exhaustion outcome. -/
theorem generated_code_checked_no_retry
    (st : Storage) (fullUrl userId : String) (dev : Option String)
    (exp : Option Nat) (gen : String) (now : Nat)
    (hurl : fullUrl ≠ "") :
    (∀ l, msLookup st.links (jsSubstring8 gen) = some l →
      createLink st fullUrl userId dev none exp gen now
        = (st, CreateResult.duplicateCode)) ∧
    (msLookup st.links (jsSubstring8 gen) = none →
      (createLink st fullUrl userId dev none exp gen now).2
        = CreateResult.success (jsSubstring8 gen)) := by
  have hgen : generateCode 2 none gen = some (jsSubstring8 gen) := rfl
  constructor
  · intro l hl
    exact createLink_duplicate_eq st fullUrl userId dev none exp gen now
      (jsSubstring8 gen) l hurl hgen hl
  · intro hn
    rw [createLink_success_eq st fullUrl userId dev none exp gen now
      (jsSubstring8 gen) hurl hgen hn]

/-- Witness for `generated_code_checked_no_retry` at the collision of
`generated_code_collision_duplicate_concrete`. -/
theorem generated_code_checked_no_retry_witness :
    ("other.example" : String) ≠ "" ∧
    msLookup stC7.links (jsSubstring8 "abc123xy") = some linkC7 ∧
    createLink stC7 "other.example" "userB" none none none "abc123xy" 1
      = (stC7, CreateResult.duplicateCode) := by
  refine ⟨by decide, by decide, ?_⟩
  exact (generated_code_checked_no_retry stC7 "other.example" "userB" none none
    "abc123xy" 1 (by decide)).1 linkC7 (by decide)

/-! ### Alias normalization and the minimum-length policy -/

/-- A create whose code computation rejects the alias fails with
`invalidAlias`, state unchanged. -/
theorem createLink_invalidAlias_eq (st : Storage) (fullUrl userId : String)
    (dev ca : Option String) (exp : Option Nat) (gen : String) (now : Nat)
    (hurl : fullUrl ≠ "") (hgen : generateCode 2 ca gen = none) :
    createLink st fullUrl userId dev ca exp gen now = (st, CreateResult.invalidAlias) := by
  unfold createLink
  rw [if_neg hurl]
  split
  next heq => rfl
  next sc heq =>
    rw [hgen] at heq
    simp at heq

/-- C6: a supplied (non-blank) alias is normalized by trimming,
lowercasing and stripping every character outside `[a-z0-9-_]`; the code
computation fails exactly when the normalized alias is shorter than the
policy minimum (3 in part_000/part_002, 2 in server.js), and otherwise
returns the normalized alias, whose characters all lie in the allowed
class.  On the server.js route, a normalized alias below the minimum
makes the create fail with `invalidAlias`, state unchanged. -/
theorem alias_normalization_and_min_length
    (minLen : Nat) (alias2 gen : String)
    (htrim : jsTrim alias2 ≠ "") :
    (generateCode minLen (some alias2) gen = none ↔
      (normalizeAlias alias2).length < minLen) ∧
    (∀ sc, generateCode minLen (some alias2) gen = some sc →
      sc = normalizeAlias alias2 ∧ sc.toList.all isAliasChar = true) ∧
    (∀ (st : Storage) (fullUrl userId : String) (dev : Option String)
        (exp : Option Nat) (now : Nat), fullUrl ≠ "" →
      (normalizeAlias alias2).length < 2 →
      createLink st fullUrl userId dev (some alias2) exp gen now
        = (st, CreateResult.invalidAlias)) := by
  have hred : generateCode minLen (some alias2) gen
      = if (normalizeAlias alias2).length < minLen then none
        else some (normalizeAlias alias2) := by
    show (if jsTrim alias2 = "" then some (jsSubstring8 gen)
      else if (normalizeAlias alias2).length < minLen then none
      else some (normalizeAlias alias2)) = _
    rw [if_neg htrim]
  refine ⟨?_, ?_, ?_⟩
  · rw [hred]
    by_cases h : (normalizeAlias alias2).length < minLen
    · simp [h]
    · simp [h]
  · intro sc hsc
    rw [hred] at hsc
    by_cases h : (normalizeAlias alias2).length < minLen
    · rw [if_pos h] at hsc
      simp at hsc
    · rw [if_neg h] at hsc
      injection hsc with hsc
      subst hsc
      refine ⟨rfl, ?_⟩
      rw [List.all_eq_true]
      intro c hc
      have : c ∈ ((jsTrim alias2).toList.map lowerChar).filter isAliasChar := hc
      exact (List.mem_filter.mp this).2
  · intro st fullUrl userId dev exp now hurl hlt
    have hgen2 : generateCode 2 (some alias2) gen = none := by
      show (if jsTrim alias2 = "" then some (jsSubstring8 gen)
        else if (normalizeAlias alias2).length < 2 then none
        else some (normalizeAlias alias2)) = none
      rw [if_neg htrim, if_pos hlt]
    exact createLink_invalidAlias_eq st fullUrl userId dev (some alias2) exp gen now
      hurl hgen2

/-- Witness for `alias_normalization_and_min_length`: under the 3-character
policy of part_000/part_002, the alias `ab` (normalized length 2) is
rejected. -/
theorem alias_normalization_and_min_length_witness :
    jsTrim "ab" ≠ "" ∧ normalizeAlias "ab" = "ab" ∧
    (normalizeAlias "ab").length < 3 ∧
    generateCode 3 (some "ab") "xyzxyzxy" = none := by
  refine ⟨by decide, by decide, by decide, ?_⟩
  exact (alias_normalization_and_min_length 3 "ab" "xyzxyzxy" (by decide)).1.mpr
    (by decide)

/-! ### Click counting -/

/-- Unfolding one `addClick` step on an existing link. -/
theorem addClick_step (st : Storage) (code : String) (c : Click) (now : Nat)
    (l : Link) (hl : msLookup st.links code = some l) :
    addClick st code c now
      = ({ st with
            links := msSet st.links code (bumpedLink st code c now l)
            clicks := msSet st.clicks code (getClicks st code ++ [{ c with day := now }]) },
         some { c with day := now }) := by
  unfold addClick
  rw [hl]
  rfl

/-- Ledger and counter evolution over a batch of `addClick` calls: the
total grows by the batch size, the ledger is extended by the stamped
batch, and (for a nonempty batch) `uniqueClicks` is the number of
distinct visitor keys of the final ledger. -/
theorem recordAll_stats (code : String) (now : Nat) (cs : List Click) :
    ∀ (st : Storage) (l : Link), msLookup st.links code = some l →
      ∃ l', msLookup (recordAll st code cs now).links code = some l' ∧
        l'.totalClicks = l.totalClicks + cs.length ∧
        getClicks (recordAll st code cs now) code
          = getClicks st code ++ cs.map (fun c => { c with day := now }) ∧
        (cs = [] → l' = l) ∧
        (cs ≠ [] → l'.uniqueClicks
          = distinctKeys (getClicks st code ++ cs.map (fun c => { c with day := now }))) := by
  induction cs with
  | nil =>
    intro st l hl
    exact ⟨l, hl, by simp, by simp [recordAll], fun _ => rfl, fun h => absurd rfl h⟩
  | cons c cs ih =>
    intro st l hl
    have h1 := addClick_step st code c now l hl
    have hl1 : msLookup (addClick st code c now).1.links code
        = some (bumpedLink st code c now l) := by
      rw [h1]
      exact msLookup_msSet_self st.links code _
    have hc1 : getClicks (addClick st code c now).1 code
        = getClicks st code ++ [{ c with day := now }] := by
      rw [h1]
      show (msLookup (msSet st.clicks code (getClicks st code ++ [{ c with day := now }]))
        code).getD [] = _
      rw [msLookup_msSet_self]
      rfl
    obtain ⟨l', hl', htot, hled, hnil, huniq⟩ := ih (addClick st code c now).1 _ hl1
    refine ⟨l', hl', ?_, ?_, ?_, ?_⟩
    · rw [htot]
      show l.totalClicks + 1 + cs.length = l.totalClicks + (c :: cs).length
      simp [List.length_cons]
      omega
    · show getClicks (recordAll (addClick st code c now).1 code cs now) code = _
      rw [hled, hc1, List.append_assoc]
      rfl
    · intro h
      simp at h
    · intro _
      cases cs with
      | nil =>
        have he := hnil rfl
        subst he
        show (bumpedLink st code c now l).uniqueClicks = _
        rfl
      | cons d ds =>
        have hq := huniq (by simp)
        rw [hq, hc1, List.append_assoc]
        rfl

/-- C2: starting from a fresh link (zero counters, empty ledger), after a
batch of record calls `totalClicks` equals the number of calls and
`uniqueClicks` equals the number of distinct visitor keys of the recorded
clicks. -/
theorem addClick_total_and_unique_counts
    (st : Storage) (code : String) (l : Link) (cs : List Click) (now : Nat)
    (hl : msLookup st.links code = some l)
    (ht : l.totalClicks = 0) (hu : l.uniqueClicks = 0)
    (hc : getClicks st code = []) :
    (msLookup (recordAll st code cs now).links code).map
        (fun l' => (l'.totalClicks, l'.uniqueClicks))
      = some (cs.length, (cs.map uniqueKey).dedup.length) := by
  obtain ⟨l', hl', htot, hled, hnil, huniq⟩ := recordAll_stats code now cs st l hl
  rw [hl']
  have hkey : ∀ (ds : List Click),
      (ds.map (fun x => ({ x with day := now } : Click))).map uniqueKey
        = ds.map uniqueKey := by
    intro ds
    rw [List.map_map]
    exact List.map_congr_left (fun a _ => rfl)
  cases cs with
  | nil =>
    have he := hnil rfl
    subst he
    simp [ht, hu]
  | cons c cs' =>
    have hq := huniq (by simp)
    rw [hc] at hq
    have h1 : l'.totalClicks = (c :: cs').length := by
      rw [htot, ht]
      simp
    have h2 : l'.uniqueClicks = ((c :: cs').map uniqueKey).dedup.length := by
      rw [hq]
      show (((c :: cs').map (fun x => ({ x with day := now } : Click))).map
        uniqueKey).dedup.length = _
      rw [hkey]
    simp [h1, h2]

/-- Witness for `addClick_total_and_unique_counts`: five visits from three
distinct IPs with no device fingerprint give `totalClicks = 5` and
`uniqueClicks = 3`. -/
theorem addClick_total_and_unique_counts_witness :
    msLookup stC2.links "ccc" = some linkC2 ∧ linkC2.totalClicks = 0 ∧
    linkC2.uniqueClicks = 0 ∧ getClicks stC2 "ccc" = [] ∧
    (∀ c ∈ csC2, c.deviceId = none) ∧ csC2.length = 5 ∧
    (csC2.map uniqueKey).dedup.length = 3 ∧
    (msLookup (recordAll stC2 "ccc" csC2 1).links "ccc").map
        (fun l' => (l'.totalClicks, l'.uniqueClicks)) = some (5, 3) := by
  refine ⟨by decide, by decide, by decide, by decide, by decide, by decide, by decide, ?_⟩
  have h := addClick_total_and_unique_counts stC2 "ccc" linkC2 csC2 1
    (by decide) (by decide) (by decide) (by decide)
  rw [h]
  decide

/-! ### The last-7-days series -/

theorem last7Days_length (cnt : Nat → Nat) (today : Nat) :
    (last7Days cnt today).length = 7 := rfl

theorem last7Days_eq (cnt : Nat → Nat) (today : Nat) (h : 6 ≤ today) :
    last7Days cnt today
      = (List.range 7).map (fun k => (today - 6 + k, cnt (today - 6 + k))) := by
  have h0 : today - 6 + 0 = today - 6 := by omega
  have h1 : today - 6 + 1 = today - 5 := by omega
  have h2 : today - 6 + 2 = today - 4 := by omega
  have h3 : today - 6 + 3 = today - 3 := by omega
  have h4 : today - 6 + 4 = today - 2 := by omega
  have h5 : today - 6 + 5 = today - 1 := by omega
  have h6 : today - 6 + 6 = today - 0 := by omega
  have hr : (List.range 7).reverse = [6, 5, 4, 3, 2, 1, 0] := rfl
  have hr2 : List.range 7 = [0, 1, 2, 3, 4, 5, 6] := rfl
  rw [last7Days, hr, hr2]
  simp only [List.map_cons, List.map_nil]
  rw [h0, h1, h2, h3, h4, h5, h6]

theorem last7Days_mono (cnt : Nat → Nat) (today : Nat) (h : 6 ≤ today) :
    List.Chain' (fun a b => a.1 < b.1) (last7Days cnt today) := by
  have hr : (List.range 7).reverse = [6, 5, 4, 3, 2, 1, 0] := rfl
  rw [last7Days, hr]
  simp only [List.map_cons, List.map_nil, List.chain'_cons, List.chain'_singleton,
    and_true]
  omega

/-- C8: the dashboard's `recentActivity` (server.js) and the per-link
`daily` series (part_000 stats route) always have exactly 7 entries, one
per calendar day from 6 days ago through today in oldest-to-newest order,
with count 0 for days without clicks (the count of day `d` is literally
the number of retained clicks falling on `d`, which is 0 when there are
none). -/
theorem last7_series_shape
    (st : Storage) (uid : String) (clicks : List Click) (today : Nat)
    (h : 6 ≤ today) :
    (dashboardRecentActivity st uid today).length = 7 ∧
    dashboardRecentActivity st uid today
      = (List.range 7).map (fun k => (today - 6 + k, ownerDayCount st uid (today - 6 + k))) ∧
    List.Chain' (fun a b => a.1 < b.1) (dashboardRecentActivity st uid today) ∧
    (statsLast7Days clicks today).length = 7 ∧
    statsLast7Days clicks today
      = (List.range 7).map (fun k =>
          (today - 6 + k, clicks.countP (fun c => c.day = today - 6 + k))) ∧
    List.Chain' (fun a b => a.1 < b.1) (statsLast7Days clicks today) :=
  ⟨last7Days_length _ _, last7Days_eq _ _ h, last7Days_mono _ _ h,
   last7Days_length _ _, last7Days_eq _ _ h, last7Days_mono _ _ h⟩

/-- Witness for `last7_series_shape`: with no clicks at all, day 10 yields
the seven zero-filled entries for days 4 through 10, oldest first. -/
theorem last7_series_shape_witness :
    6 ≤ 10 ∧
    (dashboardRecentActivity emptyStorage "ownerA" 10).length = 7 ∧
    dashboardRecentActivity emptyStorage "ownerA" 10
      = [(4, 0), (5, 0), (6, 0), (7, 0), (8, 0), (9, 0), (10, 0)] ∧
    statsLast7Days [] 10 = [(4, 0), (5, 0), (6, 0), (7, 0), (8, 0), (9, 0), (10, 0)] := by
  refine ⟨by decide, (last7_series_shape emptyStorage "ownerA" [] 10 (by decide)).1,
    by decide, by decide⟩

/-! ### Serialized creates with the same alias -/

theorem runCreates_cons (st : Storage) (r : CreateReq) (rest : List CreateReq)
    (now : Nat) :
    runCreates st (r :: rest) now
      = ((runCreates (createLink st r.fullUrl r.userId r.deviceId r.customAlias
            r.expiresIn r.gen now).1 rest now).1,
         (createLink st r.fullUrl r.userId r.deviceId r.customAlias r.expiresIn
            r.gen now).2
           :: (runCreates (createLink st r.fullUrl r.userId r.deviceId r.customAlias
            r.expiresIn r.gen now).1 rest now).2) := rfl

/-- Once the candidate code is present in the store, every further create
request for the same alias is answered `duplicateCode` and the state does
not change. -/
theorem runCreates_all_dup (alias2 code : String) (now : Nat)
    (hgen : ∀ g, generateCode 2 (some alias2) g = some code) :
    ∀ (reqs : List CreateReq) (st : Storage) (l : Link),
      (∀ r ∈ reqs, r.customAlias = some alias2 ∧ r.fullUrl ≠ "") →
      msLookup st.links code = some l →
      runCreates st reqs now = (st, reqs.map (fun _ => CreateResult.duplicateCode)) := by
  intro reqs
  induction reqs with
  | nil =>
    intro st l _ _
    rfl
  | cons r rest ih =>
    intro st l hall hsome
    have hr := hall r (List.mem_cons_self r rest)
    have hdup : createLink st r.fullUrl r.userId r.deviceId r.customAlias r.expiresIn
        r.gen now = (st, CreateResult.duplicateCode) := by
      rw [hr.1]
      exact createLink_duplicate_eq st r.fullUrl r.userId r.deviceId (some alias2)
        r.expiresIn r.gen now code l hr.2 (hgen r.gen) hsome
    have hrest := ih st l (fun r' hr' => hall r' (List.mem_cons_of_mem r hr')) hsome
    rw [runCreates_cons, hdup]
    dsimp only
    rw [hrest]
    rfl

/-- C9: the create route runs its existence-check-then-insert with no
intervening await, so the event loop serializes concurrent creates into
some sequence; for every such sequence of requests carrying the same
(valid, fresh) custom alias, exactly one request succeeds and every other
request is answered `duplicateCode`. -/
theorem same_alias_creates_at_most_one_success
    (alias2 : String) (reqs : List CreateReq) (st : Storage) (now : Nat)
    (hall : ∀ r ∈ reqs, r.customAlias = some alias2 ∧ r.fullUrl ≠ "")
    (htrim : jsTrim alias2 ≠ "")
    (hlen : 2 ≤ (normalizeAlias alias2).length)
    (habs : msLookup st.links (normalizeAlias alias2) = none)
    (hne : reqs ≠ []) :
    (runCreates st reqs now).2.countP isSuccess = 1 ∧
    ∀ res ∈ (runCreates st reqs now).2,
      res = CreateResult.success (normalizeAlias alias2) ∨
      res = CreateResult.duplicateCode := by
  have hgen : ∀ g, generateCode 2 (some alias2) g = some (normalizeAlias alias2) := by
    intro g
    show (if jsTrim alias2 = "" then some (jsSubstring8 g)
      else if (normalizeAlias alias2).length < 2 then none
      else some (normalizeAlias alias2)) = _
    rw [if_neg htrim, if_neg (by omega : ¬ (normalizeAlias alias2).length < 2)]
  cases reqs with
  | nil => exact absurd rfl hne
  | cons r rest =>
    have hr := hall r (List.mem_cons_self r rest)
    have h1 : createLink st r.fullUrl r.userId r.deviceId r.customAlias r.expiresIn
        r.gen now
        = (addLink (getOrCreateUser st r.userId r.deviceId now)
            (storedLink r.fullUrl r.userId (some alias2) r.expiresIn now
              (normalizeAlias alias2)),
           CreateResult.success (normalizeAlias alias2)) := by
      rw [hr.1]
      exact createLink_success_eq st r.fullUrl r.userId r.deviceId (some alias2)
        r.expiresIn r.gen now (normalizeAlias alias2) hr.2 (hgen r.gen) habs
    have h2 : msLookup (addLink (getOrCreateUser st r.userId r.deviceId now)
        (storedLink r.fullUrl r.userId (some alias2) r.expiresIn now
          (normalizeAlias alias2))).links (normalizeAlias alias2)
        = some (storedLink r.fullUrl r.userId (some alias2) r.expiresIn now
            (normalizeAlias alias2)) :=
      msLookup_msSet_self (getOrCreateUser st r.userId r.deviceId now).links _ _
    have hrest := runCreates_all_dup alias2 (normalizeAlias alias2) now hgen rest
      (addLink (getOrCreateUser st r.userId r.deviceId now)
        (storedLink r.fullUrl r.userId (some alias2) r.expiresIn now
          (normalizeAlias alias2)))
      (storedLink r.fullUrl r.userId (some alias2) r.expiresIn now
        (normalizeAlias alias2))
      (fun r' hr' => hall r' (List.mem_cons_of_mem r hr')) h2
    have hrun : runCreates st (r :: rest) now
        = (addLink (getOrCreateUser st r.userId r.deviceId now)
            (storedLink r.fullUrl r.userId (some alias2) r.expiresIn now
              (normalizeAlias alias2)),
           CreateResult.success (normalizeAlias alias2)
             :: rest.map (fun _ => CreateResult.duplicateCode)) := by
      rw [runCreates_cons, h1]
      dsimp only
      rw [hrest]
    rw [hrun]
    constructor
    · show List.countP isSuccess (CreateResult.success (normalizeAlias alias2)
        :: rest.map (fun _ => CreateResult.duplicateCode)) = 1
      rw [List.countP_cons]
      have hz : (rest.map (fun _ => CreateResult.duplicateCode)).countP isSuccess = 0 := by
        induction rest with
        | nil => rfl
        | cons x xs ihx =>
          rw [List.map_cons, List.countP_cons]
          simp [isSuccess, ihx]
      rw [hz]
      simp [isSuccess]
    · intro res hres
      rcases List.mem_cons.mp hres with hh | hh
      · exact Or.inl hh
      · rcases List.mem_map.mp hh with ⟨a, _, he⟩
        exact Or.inr he.symm

/-- Witness for `same_alias_creates_at_most_one_success`: two requests for
the alias `promo` on an empty store, run in sequence; the first succeeds,
the second is a duplicate. -/
theorem same_alias_creates_at_most_one_success_witness :
    (∀ r ∈ [reqC9a, reqC9b], r.customAlias = some "promo" ∧ r.fullUrl ≠ "") ∧
    jsTrim "promo" ≠ "" ∧ 2 ≤ (normalizeAlias "promo").length ∧
    msLookup emptyStorage.links (normalizeAlias "promo") = none ∧
    [reqC9a, reqC9b] ≠ ([] : List CreateReq) ∧
    (runCreates emptyStorage [reqC9a, reqC9b] 0).2.countP isSuccess = 1 ∧
    (runCreates emptyStorage [reqC9a, reqC9b] 0).2
      = [CreateResult.success "promo", CreateResult.duplicateCode] := by
  refine ⟨by decide, by decide, by decide, by decide, by decide, ?_, by decide⟩
  exact (same_alias_creates_at_most_one_success "promo" [reqC9a, reqC9b] emptyStorage 0
    (by decide) (by decide) (by decide) (by decide) (by decide)).1

/-! ### Dashboard unique clicks -/

theorem foldl_add_eq_sum {α : Type} (f : α → Nat) (ls : List α) (a : Nat) :
    ls.foldl (fun s x => s + f x) a = a + (ls.map f).sum := by
  induction ls generalizing a with
  | nil => simp
  | cons x xs ih =>
    rw [List.foldl_cons, List.map_cons, List.sum_cons, ih]
    omega

theorem mem_insertByCreated {l a : Link} {xs : List Link} :
    a ∈ insertByCreated l xs ↔ a = l ∨ a ∈ xs := by
  induction xs with
  | nil => simp [insertByCreated]
  | cons x xs ih =>
    unfold insertByCreated
    by_cases h : x.createdAt < l.createdAt
    · rw [if_pos h]
      simp only [List.mem_cons]
    · rw [if_neg h]
      simp only [List.mem_cons, ih]
      tauto

theorem mem_sortByCreatedDesc {a : Link} {ls : List Link} :
    a ∈ sortByCreatedDesc ls ↔ a ∈ ls := by
  unfold sortByCreatedDesc
  induction ls with
  | nil => simp
  | cons x xs ih =>
    rw [List.foldr_cons, mem_insertByCreated, ih]
    simp [List.mem_cons]

/-- Every link the owner's list resolves comes from the links map. -/
theorem mem_getUserLinks {st : Storage} {uid : String} {l : Link}
    (h : l ∈ getUserLinks st uid) : ∃ c, msLookup st.links c = some l := by
  unfold getUserLinks at h
  split at h
  · simp at h
  next u hm =>
    rw [mem_sortByCreatedDesc, List.mem_filterMap] at h
    obtain ⟨o, ho, hid⟩ := h
    rcases List.mem_map.mp ho with ⟨c, _, hoc⟩
    refine ⟨c, ?_⟩
    rw [hoc]
    simpa using hid

/-- C10: the dashboard's `uniqueClicks` is the sum of the per-link
`uniqueClicks` counters over the owner's links; when the counters are
accurate (as `addClick` keeps them), it equals the sum over the owner's
links of that link's number of distinct visitor keys — not the number of
globally distinct visitors, so a visitor who clicked k links is counted k
times. -/
theorem dashboard_unique_is_sum_of_per_link
    (st : Storage) (uid : String) (hcons : statsConsistent st = true) :
    dashboardUniqueClicks st uid
      = ((getUserLinks st uid).map (fun l => l.uniqueClicks)).sum ∧
    dashboardUniqueClicks st uid
      = ((getUserLinks st uid).map (fun l => distinctKeys (getClicks st l.shortCode))).sum := by
  have hsum : dashboardUniqueClicks st uid
      = ((getUserLinks st uid).map (fun l => l.uniqueClicks)).sum := by
    unfold dashboardUniqueClicks
    rw [foldl_add_eq_sum]
    simp
  refine ⟨hsum, ?_⟩
  rw [hsum]
  have hcongr : ∀ a ∈ getUserLinks st uid,
      a.uniqueClicks = distinctKeys (getClicks st a.shortCode) := by
    intro a ha
    obtain ⟨c, hc⟩ := mem_getUserLinks ha
    have hmem := msLookup_mem st.links c a hc
    have hOK := List.all_eq_true.mp hcons _ hmem
    unfold linkStatsOK at hOK
    simp only [Bool.and_eq_true, beq_iff_eq] at hOK
    rw [hOK.1]
    exact hOK.2
  rw [List.map_congr_left hcongr]

/-- Witness for `dashboard_unique_is_sum_of_per_link`: one visitor clicked
two links of `ownerA`; the dashboard reports `uniqueClicks = 2` although
only one globally distinct visitor exists. -/
theorem dashboard_unique_is_sum_of_per_link_witness :
    statsConsistent stC10 = true ∧
    dashboardUniqueClicks stC10 "ownerA" = 2 ∧
    distinctKeys (ownerClicks stC10 "ownerA") = 1 := by
  refine ⟨by decide, ?_, by decide⟩
  have h := (dashboard_unique_is_sum_of_per_link stC10 "ownerA" (by decide)).2
  rw [h]
  decide

end AgLink
